import Mathlib

/-!
Shallow embedding of the statement-text extraction and reconciliation engine
of `src/streamlit_app.py` (FNB bank statement analyzer), together with
theorems settling the frozen claims about it.

Conventions of the embedding:
* Python strings are `List Char` (named `Str` below); string literals are
  converted with `lchars`.
* Python floats are idealized as `ℚ` (every numeric token of the pipeline
  denotes an exact decimal, so the idealization is faithful at the level the
  claims speak about); `round(x, 2)` becomes `pyRound2` (round half to even
  at two decimals, the behaviour of Python's `round` on exact decimals).
* The regular expressions of the source are embedded with a small
  nondeterministic-matcher kit (`Mtch`): a matcher maps the character before
  the current position (for word boundaries) and the remaining input to the
  list of possible (capture, previous character, rest) outcomes in exactly
  the backtracking priority order of Python's `re` engine; `re.match` takes
  the head of that list, `re.search` the first position with a non-empty
  list.  Each regex of the source is transliterated piece by piece.
* Exceptions are `Option`: `clean_amount` returns `none` where Python raises
  `ValueError`, and `parse_transactions_from_linesE` propagates that
  exception (`none` = the whole parse raises), while
  `parse_transactions_from_lines` is the total projection that agrees with
  it on every non-raising run (`ploopFE_agree`).
-/

namespace BankStmt

/-- Python strings, as lists of characters. -/
abbrev Str := List Char

/-- Convert a Lean string literal to the embedding's string type. -/
def lchars (s : String) : Str := s.toList

/-- Python's `\s` (ASCII whitespace, the only whitespace appearing here). -/
def isPySpace (c : Char) : Bool :=
  c = ' ' || c = '\t' || c = '\n' || c = '\r' || c = '\x0b' || c = '\x0c'

/-- Python's `\d` for the ASCII inputs of this program. -/
def isPyDigit (c : Char) : Bool := '0' ≤ c && c ≤ '9'

/-- ASCII letter, Python's `[A-Za-z]`. -/
def isAsciiAlpha (c : Char) : Bool := ('a' ≤ c && c ≤ 'z') || ('A' ≤ c && c ≤ 'Z')

/-- Python's `\w` (word character) for ASCII inputs. -/
def isWordChar (c : Char) : Bool := isAsciiAlpha c || isPyDigit c || c = '_'

/-- Python `str.strip()`. -/
def pyStrip (s : Str) : Str :=
  ((s.dropWhile isPySpace).reverse.dropWhile isPySpace).reverse

/-- Python `str.lower()` on the ASCII strings of this program. -/
def lowerL (s : Str) : Str := s.map Char.toLower

/-- Digit string to natural number, Python `int(...)` on digit strings. -/
def digitsToNat (s : Str) : Nat :=
  s.foldl (fun a c => 10 * a + (c.toNat - '0'.toNat)) 0

/-- Python `str.split()` (split on whitespace runs, dropping empty parts);
the auxiliary carries the reversed current word. -/
def pySplitWsAux : Str → Str → List Str
  | acc, [] => if acc = [] then [] else [acc.reverse]
  | acc, c :: t =>
    if isPySpace c then
      if acc = [] then pySplitWsAux [] t else acc.reverse :: pySplitWsAux [] t
    else pySplitWsAux (c :: acc) t

/-- Python `str.split()`. -/
def pySplitWs (s : Str) : List Str := pySplitWsAux [] s

/-- Python `sep.join(parts)`. -/
def joinSep (sep : Str) : List Str → Str
  | [] => []
  | [s] => s
  | s :: t => s ++ sep ++ joinSep sep t

/-- `" ".join(parts).split()` re-joined: whitespace normalisation of the
description, line 277 of the source. -/
def joinWords (parts : List Str) : Str :=
  joinSep (lchars " ") (pySplitWs (joinSep (lchars " ") parts))

/-- Floor of a rational as an integer (`x.num.fdiv x.den` is exact since the
denominator is positive). -/
def qfloor (x : ℚ) : ℤ := x.num.fdiv x.den

/-- Round a rational to the nearest integer, ties to even: the behaviour of
Python's `round` on exact decimal values. -/
def roundHalfEven (x : ℚ) : ℤ :=
  let f := qfloor x
  let r := x - (f : ℚ)
  if r < 1/2 then f
  else if 1/2 < r then f + 1
  else if f % 2 = 0 then f else f + 1

/-- Python `round(x, 2)`, idealized over exact decimals. -/
def pyRound2 (x : ℚ) : ℚ := (roundHalfEven (x * 100) : ℚ) / 100

/-! ## The regular-expression kit

A matcher takes the character just before the current position (`none` at
the start of the string — needed for `\b`) and the remaining input, and
returns every possible outcome `(capture, character before the new position,
rest)` in the priority order of Python's backtracking `re` engine. -/

/-- Nondeterministic regex matcher: outcomes in backtracking priority order. -/
def Mtch (α : Type) := Option Char → List Char → List (α × Option Char × List Char)

/-- Matcher returning `a` without consuming input. -/
def mPure (a : α) : Mtch α := fun p r => [(a, p, r)]

/-- Sequence two matchers (all combinations, left priority outermost). -/
def mBind (m : Mtch α) (f : α → Mtch β) : Mtch β := fun p r =>
  (m p r).flatMap (fun o => f o.1 o.2.1 o.2.2)

/-- Ordered alternation: all outcomes of `m₁` before those of `m₂`. -/
def mOr (m₁ m₂ : Mtch α) : Mtch α := fun p r => m₁ p r ++ m₂ p r

/-- Match one character satisfying `q`. -/
def mChar (q : Char → Bool) : Mtch Char := fun _ r =>
  match r with
  | [] => []
  | c :: t => if q c then [(c, some c, t)] else []

/-- The character before the position after consuming `taken` (for `\b`). -/
def advPrev (p : Option Char) (taken : List Char) : Option Char :=
  match taken.getLast? with
  | some c => some c
  | none => p

/-- Case-insensitive literal (Python `re.IGNORECASE`). -/
def mLitCI (w : String) : Mtch Str := fun p r =>
  let cs := lchars w
  if lowerL (r.take cs.length) = lowerL cs then
    [(r.take cs.length, advPrev p (r.take cs.length), r.drop cs.length)]
  else []

/-- Case-sensitive literal. -/
def mLitCS (w : String) : Mtch Str := fun p r =>
  let cs := lchars w
  if r.take cs.length = cs then [(cs, advPrev p cs, r.drop cs.length)] else []

/-- Greedy counted repetition `q{lo,hi}`: alternatives from the longest
possible take (at most `hi`, at most the run of `q`-characters) down to
`lo`; empty if even `lo` characters are unavailable. -/
def mRepFromTo (q : Char → Bool) (lo hi : Nat) : Mtch Str := fun p r =>
  let run := min hi (r.takeWhile q).length
  ((List.range (run + 1)).reverse).filterMap fun k =>
    if lo ≤ k then some (r.take k, advPrev p (r.take k), r.drop k) else none

/-- Greedy unbounded repetition `q{lo,}` (so `q*` is `lo = 0`, `q+` is
`lo = 1`). -/
def mRepFrom (q : Char → Bool) (lo : Nat) : Mtch Str := fun p r =>
  let run := (r.takeWhile q).length
  ((List.range (run + 1)).reverse).filterMap fun k =>
    if lo ≤ k then some (r.take k, advPrev p (r.take k), r.drop k) else none

/-- Lazy dot-star `.*?`: alternatives from consuming nothing upwards.  With
`dotAll` false a `.` does not cross a newline. -/
def mDotsLazy (dotAll : Bool) : Mtch Str := fun p r =>
  (List.range (r.length + 1)).filterMap fun k =>
    let taken := r.take k
    if dotAll || taken.all (· ≠ '\n') then some (taken, advPrev p taken, r.drop k)
    else none

/-- Is the position neighbour a word character (`none` counts as not). -/
def wordAt (p : Option Char) : Bool :=
  match p with
  | some c => isWordChar c
  | none => false

/-- Zero-width word boundary `\b`. -/
def mWordB : Mtch Unit := fun p r =>
  if wordAt p != wordAt r.head? then [((), p, r)] else []

/-- Zero-width end anchor (the inputs carry no trailing newline, so `$` is
end of string). -/
def mEnd : Mtch Unit := fun p r => if r = [] then [((), p, r)] else []

/-- Greedy option `X?` returning the consumed text (empty when skipped). -/
def mOptL (m : Mtch Str) : Mtch Str := mOr m (mPure [])

/-- Greedy option of a one-character matcher. -/
def mOpt1 (m : Mtch Char) : Mtch Str :=
  mOr (mBind m fun c => mPure [c]) (mPure [])

/-- Greedy option discarding the capture. -/
def mOptU (m : Mtch Unit) : Mtch Unit := mOr m (mPure ())

/-- `re.match`: anchored at the start of `s`, first outcome in priority
order. -/
def reMatch (m : Mtch α) (s : Str) : Option α :=
  ((m none s).head?).map (·.1)

/-- `re.search`: leftmost position with a match, first outcome there. -/
def reSearchAux (m : Mtch α) : Option Char → List Char → Option α
  | p, r =>
    match (m p r).head? with
    | some o => some o.1
    | none =>
      match r with
      | [] => none
      | c :: t => reSearchAux m (some c) t

/-- `re.search` over a whole string. -/
def reSearch (m : Mtch α) (s : Str) : Option α := reSearchAux m none s

/-! ## The source's regexes -/

/-- Maximal number of leading `,\d{3}` groups (for `(?:,\d{3})*`). -/
def countCG : List Char → Nat
  | ',' :: a :: b :: c :: t =>
    if isPyDigit a && isPyDigit b && isPyDigit c then countCG t + 1 else 0
  | _ => 0

/-- Greedy `(?:,\d{3})*`: from the maximal repetition count down to zero. -/
def commaGroupsM : Mtch Str := fun p r =>
  ((List.range (countCG r + 1)).reverse).map fun j =>
    (r.take (4 * j), advPrev p (r.take (4 * j)), r.drop (4 * j))

/-- `\.\d{2}` (decimal point and exactly two digits). -/
def fracM : Mtch Str :=
  mBind (mChar (· = '.')) fun d =>
  mBind (mRepFromTo isPyDigit 2 2) fun ds =>
  mPure (d :: ds)

/-- The numeric token `\(?-?\d{1,3}(?:,\d{3})*(?:\.\d{2})?\)?` of
`AMOUNT_AND_BALANCE_RE` (and of `clean_amount`'s `findall`), source lines
92 and 168/171. -/
def numTokM : Mtch Str :=
  mBind (mOpt1 (mChar (· = '('))) fun a =>
  mBind (mOpt1 (mChar (· = '-'))) fun b =>
  mBind (mRepFromTo isPyDigit 1 3) fun ds =>
  mBind commaGroupsM fun gs =>
  mBind (mOptL fracM) fun fr =>
  mBind (mOpt1 (mChar (· = ')'))) fun cp =>
  mPure (a ++ b ++ ds ++ gs ++ fr ++ cp)

/-- `\b(?:CR|DR)\b`, case-sensitive (the verbose amount regex carries no
`re.IGNORECASE`). -/
def crdrWordCS : Mtch Unit :=
  mBind mWordB fun _ =>
  mBind (mOr (mLitCS "CR") (mLitCS "DR")) fun _ =>
  mBind mWordB fun _ =>
  mPure ()

/-- Leading `(?:.*?\b(?:CR|DR)\b\s*)?` of `AMOUNT_AND_BALANCE_RE`. -/
def pieceLeadCRDR : Mtch Unit :=
  mOptU (mBind (mDotsLazy false) fun _ =>
         mBind crdrWordCS fun _ =>
         mBind (mRepFrom isPySpace 0) fun _ =>
         mPure ())

/-- Leading `(?:.*?\b[Rr]\s*)?` of `AMOUNT_AND_BALANCE_RE`. -/
def pieceLeadR : Mtch Unit :=
  mOptU (mBind (mDotsLazy false) fun _ =>
         mBind mWordB fun _ =>
         mBind (mChar (fun c => c = 'R' || c = 'r')) fun _ =>
         mBind (mRepFrom isPySpace 0) fun _ =>
         mPure ())

/-- `(?:\s*\b(?:CR|DR)\b)?` after an amount or balance. -/
def pieceSufCRDR : Mtch Unit :=
  mOptU (mBind (mRepFrom isPySpace 0) fun _ =>
         mBind crdrWordCS fun _ =>
         mPure ())

/-- Optional trailing running balance
`(?:\s+(num)(?:\s*\b(?:CR|DR)\b)?\s*)?` (capture group 2). -/
def pieceRunBal : Mtch (Option Str) :=
  mOr (mBind (mRepFrom isPySpace 1) fun _ =>
       mBind numTokM fun g2 =>
       mBind pieceSufCRDR fun _ =>
       mBind (mRepFrom isPySpace 0) fun _ =>
       mPure (some g2))
      (mPure none)

/-- `AMOUNT_AND_BALANCE_RE`, source lines 163-177: anchored `^...$`,
capturing the amount (group 1) and the optional running balance
(group 2). -/
def amountBalanceM : Mtch (Str × Option Str) :=
  mBind pieceLeadCRDR fun _ =>
  mBind pieceLeadR fun _ =>
  mBind numTokM fun g1 =>
  mBind pieceSufCRDR fun _ =>
  mBind pieceRunBal fun g2 =>
  mBind mEnd fun _ =>
  mPure (g1, g2)

/-- `AMOUNT_AND_BALANCE_RE.match(s)` returning the two capture groups. -/
def amtMatchRE (s : Str) : Option (Str × Option Str) := reMatch amountBalanceM s

/-- `DATE_START_RE`, source line 160:
`^\s*(\d{1,2})\s+([A-Za-z]{3})\b(.*)$`, capturing day, month and rest. -/
def dateStartM : Mtch (Str × Str × Str) :=
  mBind (mRepFrom isPySpace 0) fun _ =>
  mBind (mRepFromTo isPyDigit 1 2) fun day =>
  mBind (mRepFrom isPySpace 1) fun _ =>
  mBind (mRepFromTo isAsciiAlpha 3 3) fun mon =>
  mBind mWordB fun _ =>
  mBind (mDotsLazy false) fun rest =>
  mBind mEnd fun _ =>
  mPure (day, mon, rest)

/-- `DATE_START_RE.match(s)` (the lines carry no newlines, so the greedy
`(.*)$` takes everything; the lazy enumeration below an `mEnd` reaches the
same unique outcome). -/
def dateMatchRE (s : Str) : Option (Str × Str × Str) := reMatch dateStartM s

/-! ## Noise filtering (`is_noise`, source lines 55-78) -/

/-- An opening pattern `^word\b.*` of `HEADER_NOISE_PATTERNS` (the trailing
`.*` always matches, so `re.match` truthiness is just the anchored part). -/
def startWordM (w : String) : Mtch Unit :=
  mBind (mLitCI w) fun _ => mBind mWordB fun _ => mPure ()

/-- `^page\s+\d+\s+of\s+\d+$`. -/
def pageNoiseM : Mtch Unit :=
  mBind (mLitCI "page") fun _ =>
  mBind (mRepFrom isPySpace 1) fun _ =>
  mBind (mRepFrom isPyDigit 1) fun _ =>
  mBind (mRepFrom isPySpace 1) fun _ =>
  mBind (mLitCI "of") fun _ =>
  mBind (mRepFrom isPySpace 1) fun _ =>
  mBind (mRepFrom isPyDigit 1) fun _ =>
  mBind mEnd fun _ =>
  mPure ()

/-- `^www\.` (the dot is escaped in the source). -/
def wwwNoiseM : Mtch Unit :=
  mBind (mLitCI "www.") fun _ => mPure ()

/-- `HEADER_NOISE_RE`, the compiled noise patterns in source order. -/
def headerNoiseList : List (Mtch Unit) :=
  [pageNoiseM, startWordM "fnb", startWordM "first national bank",
   startWordM "branch", startWordM "account", startWordM "statement",
   startWordM "customer", startWordM "contact", startWordM "vat",
   startWordM "registered", wwwNoiseM, startWordM "tel"]

/-- `is_noise`, source lines 71-78: blank after strip, or any noise pattern
matches at the start. -/
def is_noise (line : Str) : Bool :=
  let s := pyStrip line
  s = [] || headerNoiseList.any (fun m => (reMatch m s).isSome)

/-! ## `clean_amount` and `clean_number` (source lines 80-126) -/

/-- `re.search(r"\bWORD\b", s, re.IGNORECASE)` as a Boolean. -/
def searchWordCI (w : String) (s : Str) : Bool :=
  (reSearch (mBind mWordB fun _ =>
             mBind (mLitCI w) fun _ =>
             mBind mWordB fun _ => mPure ()) s).isSome

/-- Does `\b(CR|DR)\b` (case-insensitive) match at this position (`p` the
original character before it)? -/
def crdrHere (p : Option Char) : List Char → Bool
  | c₁ :: c₂ :: t =>
    (c₁ = 'C' || c₁ = 'c' || c₁ = 'D' || c₁ = 'd') &&
    (c₂ = 'R' || c₂ = 'r') &&
    !wordAt p && !wordAt t.head?
  | _ => false

/-- `re.sub(r"\b(CR|DR)\b", "", s, flags=re.IGNORECASE)`: delete the
non-overlapping matches left to right; boundary checks read the original
neighbours, which the first argument tracks. -/
def subWordCRDR : Option Char → List Char → List Char
  | _, [] => []
  | p, c :: t =>
    if crdrHere p (c :: t) then
      match t with
      | c₂ :: t₂ => subWordCRDR (some c₂) t₂
      | [] => []
    else c :: subWordCRDR (some c) t

/-- `re.sub(r"[Rr]\s*", "", s)`: each `R`/`r` and the whitespace run after
it is removed; the flag records that we are inside such a run. -/
def subRspaceAux : Bool → List Char → List Char
  | _, [] => []
  | true, c :: t =>
    if isPySpace c then subRspaceAux true t
    else if c = 'R' || c = 'r' then subRspaceAux true t
    else c :: subRspaceAux false t
  | false, c :: t =>
    if c = 'R' || c = 'r' then subRspaceAux true t
    else c :: subRspaceAux false t

/-- `re.sub(r"[Rr]\s*", "", s)`. -/
def subRspace (s : Str) : Str := subRspaceAux false s

/-- `re.findall(numtok, s)[0]`: leftmost match of the numeric token, first
(greedy) alternative there.  The pattern is context-free (no `\b`), so the
previous character is irrelevant. -/
def findFirstNum : List Char → Option Str
  | [] => none
  | r@(_ :: t) =>
    match (numTokM none r).head? with
    | some o => some o.1
    | none => findFirstNum t

/-- Python `float(...)` restricted to the decimal shapes reachable here:
optional sign, digits, optional decimal point and digits (at least one
digit in all).  Anything else — where Python would raise — is `none`. -/
def pyFloat (s : Str) : Option ℚ :=
  let (sgn, t) :=
    match s with
    | '-' :: t => ((-1 : ℚ), t)
    | '+' :: t => ((1 : ℚ), t)
    | t => ((1 : ℚ), t)
  let intPart := t.takeWhile isPyDigit
  let rest := t.dropWhile isPyDigit
  match rest with
  | [] => if intPart = [] then none else some (sgn * (digitsToNat intPart : ℚ))
  | '.' :: fr =>
    if fr.all isPyDigit && (intPart ≠ [] || fr ≠ []) then
      some (sgn * ((digitsToNat intPart : ℚ) +
        (digitsToNat fr : ℚ) / (10 : ℚ) ^ fr.length))
    else none
  | _ => none

/-- The sign resolution at the end of `clean_amount`, source lines 107-111:
`CR` forces positive, `DR` or an explicit negative forces negative,
otherwise the value is kept (positive for the unsigned tokens produced
here). -/
def applySign (cr dr neg : Bool) (v : ℚ) : ℚ :=
  if cr then |v| else if dr || neg then -|v| else v

/-- `clean_amount`, source lines 80-111.  Returns `none` where Python
raises `ValueError` (no numeric token) or `float` fails (unreachable from
the call sites, whose arguments always carry a numeric token). -/
def clean_amount (raw : Str) : Option ℚ :=
  let s₀ := pyStrip raw
  let cr := searchWordCI "CR" s₀
  let dr := searchWordCI "DR" s₀
  let s₁ := subWordCRDR none s₀
  let s₂ := pyStrip (subRspace s₁)
  match findFirstNum s₂ with
  | none => none
  | some tok =>
    let (negP, t₁) :=
      if tok.head? = some '(' && tok.getLast? = some ')' then
        (true, (tok.drop 1).dropLast)
      else (false, tok)
    let (negM, t₂) :=
      match t₁ with
      | '-' :: t => (true, t)
      | t => (negP, t)  -- `neg` stays as set by the parenthesis test
    let t₃ := t₂.filter (· ≠ ',')
    (pyFloat t₃).map (applySign cr dr (negP || negM))

/-- `clean_number`, source lines 113-126 (`raw` may be `None` or empty ⇒
`None`; strip, drop `R`s, drop commas, turn `(x)` into `-x`, `float` with
failures as `None`). -/
def clean_number (raw : Option Str) : Option ℚ :=
  match raw with
  | none => none
  | some raw =>
    if raw = [] then none
    else
      let s₁ := subRspace (pyStrip raw)
      let s₂ := s₁.filter (· ≠ ',')
      if s₂ = [] then none
      else if s₂.head? = some '(' && s₂.getLast? = some ')' then
        pyFloat ('-' :: (s₂.drop 1).dropLast)
      else pyFloat s₂

/-! ## `try_parse_statement_year` (source lines 128-138) -/

/-- `\d{1,2}\s+[A-Za-z]{3,}\s+(\d{4})` — the day/month/year tail shared by
the statement-date patterns, capturing the 4-digit year. -/
def dayMonthYearM : Mtch Nat :=
  mBind (mRepFromTo isPyDigit 1 2) fun _ =>
  mBind (mRepFrom isPySpace 1) fun _ =>
  mBind (mRepFrom isAsciiAlpha 3) fun _ =>
  mBind (mRepFrom isPySpace 1) fun _ =>
  mBind (mRepFromTo isPyDigit 4 4) fun y =>
  mPure (digitsToNat y)

/-- `Statement\s*Date\s*:\s*\d{1,2}\s+[A-Za-z]{3,}\s+(\d{4})`,
`re.IGNORECASE`. -/
def stmtDateM : Mtch Nat :=
  mBind (mLitCI "Statement") fun _ =>
  mBind (mRepFrom isPySpace 0) fun _ =>
  mBind (mLitCI "Date") fun _ =>
  mBind (mRepFrom isPySpace 0) fun _ =>
  mBind (mChar (· = ':')) fun _ =>
  mBind (mRepFrom isPySpace 0) fun _ =>
  dayMonthYearM

/-- `\b(?:Period|From)\b.*?\d{1,2}\s+[A-Za-z]{3,}\s+(\d{4}).*?\bto\b.*?(\d{4})`,
`re.IGNORECASE | re.S`; the returned year is group 2, after `to`. -/
def periodToM : Mtch Nat :=
  mBind mWordB fun _ =>
  mBind (mOr (mLitCI "Period") (mLitCI "From")) fun _ =>
  mBind mWordB fun _ =>
  mBind (mDotsLazy true) fun _ =>
  mBind dayMonthYearM fun _ =>
  mBind (mDotsLazy true) fun _ =>
  mBind mWordB fun _ =>
  mBind (mLitCI "to") fun _ =>
  mBind mWordB fun _ =>
  mBind (mDotsLazy true) fun _ =>
  mBind (mRepFromTo isPyDigit 4 4) fun y₂ =>
  mPure (digitsToNat y₂)

/-- `\bas\s+at\s+\d{1,2}\s+[A-Za-z]{3,}\s+(\d{4})`, `re.IGNORECASE`. -/
def asAtM : Mtch Nat :=
  mBind mWordB fun _ =>
  mBind (mLitCI "as") fun _ =>
  mBind (mRepFrom isPySpace 1) fun _ =>
  mBind (mLitCI "at") fun _ =>
  mBind (mRepFrom isPySpace 1) fun _ =>
  dayMonthYearM

/-- `try_parse_statement_year`, source lines 128-138: the three searches in
priority order, `None` when all fail. -/
def try_parse_statement_year (text : Str) : Option Nat :=
  match reSearch stmtDateM text with
  | some y => some y
  | none =>
    match reSearch periodToM text with
    | some y => some y
    | none => reSearch asAtM text

/-- Source line 316: `year = try_parse_statement_year(full_text) or
datetime.now().year` — Python `or` also replaces a falsy `0`. -/
def resolveYear (text : Str) (currentYear : Nat) : Nat :=
  match try_parse_statement_year text with
  | some y => if y = 0 then currentYear else y
  | none => currentYear

/-! ## `tokenize_lines` (source lines 140-157) -/

/-- The blank-collapsing loop at lines 149-156 (the flag is `blank`). -/
def collapseBlanks : Bool → List Str → List Str
  | _, [] => []
  | blank, s :: t =>
    if s = [] then
      if blank then collapseBlanks true t else s :: collapseBlanks true t
    else s :: collapseBlanks false t

/-- `tokenize_lines`: the document's text lines in order, stripped, noise
dropped, blank runs collapsed (no blank survives the noise filter, but the
loop is kept as written). -/
def tokenize_lines (input : List Str) : List Str :=
  collapseBlanks false (((input.map pyStrip).filter (fun s => !is_noise s)))

/-! ## `parse_transactions_from_lines` (source lines 238-309) -/

/-- The three-letter month abbreviations (source line 53). -/
def MONTHS_3 : List Str :=
  [lchars "jan", lchars "feb", lchars "mar", lchars "apr", lchars "may",
   lchars "jun", lchars "jul", lchars "aug", lchars "sep", lchars "oct",
   lchars "nov", lchars "dec"]

/-- 1-based month number of a valid lowered abbreviation. -/
def monthNum (m : Str) : Nat := (MONTHS_3.indexOf m) + 1

/-- Gregorian leap year (what `datetime` implements). -/
def isLeap (y : Int) : Bool := y % 4 = 0 && (y % 100 ≠ 0 || y % 400 = 0)

/-- Days in a month for `datetime.strptime` validity. -/
def daysInMonth (m : Nat) (y : Int) : Nat :=
  if m = 2 then (if isLeap y then 29 else 28)
  else if m = 4 || m = 6 || m = 9 || m = 11 then 30
  else 31

/-- Whether `datetime.strptime(f"{day:02d} {Mon} {year}", "%d %b %Y")`
succeeds (the month abbreviation is already known valid; `%Y` demands
exactly four digits, so the unpadded year must lie in 1000..9999). -/
def validDate (day m : Nat) (y : Int) : Bool :=
  1 ≤ day && day ≤ daysInMonth m y && 1 ≤ m && m ≤ 12 && 1000 ≤ y && y ≤ 9999

/-- A parsed transaction: the `(datetime, description, amount)` triple. -/
structure Txn where
  year : Int
  month : Nat
  day : Nat
  desc : Str
  amount : ℚ
deriving DecidableEq, Repr

/-- Outcome of the inner lookahead loop (source lines 263-274): either an
amount line was found (`found`, with the description parts collected on the
way and the lines after the amount line), or the scan stopped at the next
date-opening line or at the end (`stopped`, with the raw skipped lines for
the diagnostic snippet and the remaining suffix). -/
inductive ScanOut where
  | found (descParts : List Str) (amountLine : Str) (after : List Str)
  | stopped (descParts : List Str) (skippedRaw : List Str) (rest : List Str)
deriving DecidableEq, Repr

/-- The inner lookahead loop: strip each candidate, stop at a date line,
stop with success at an amount line, otherwise collect non-empty candidates
as description parts. -/
def scanBlock : List Str → ScanOut
  | [] => .stopped [] [] []
  | l :: t =>
    let cand := pyStrip l
    if (dateMatchRE cand).isSome then .stopped [] [] (l :: t)
    else if (amtMatchRE cand).isSome then .found [] cand t
    else
      match scanBlock t with
      | .found dps a af =>
        .found (if cand = [] then dps else cand :: dps) a af
      | .stopped dps sk r =>
        .stopped (if cand = [] then dps else cand :: dps) (l :: sk) r

/-- Sign resolution and running-balance advance, source lines 291-297: when
both the row's running balance and the previous one exist, the delta
becomes the amount (the guard `<= 0.02 or True` is identically true) and
the state advances; otherwise the naive amount and the old state are
kept. -/
def resolveAmt (amt : ℚ) (runbal prev : Option ℚ) : ℚ × Option ℚ :=
  match runbal, prev with
  | some rb, some p => (pyRound2 (rb - p), some rb)
  | _, _ => (amt, prev)

/-- The CR/DR marker appended to the raw amount, source lines 283-287:
search the whole amount line (ignorecase) for a CR word, else for a DR
word. -/
def crdrMarker (amountLine : Str) : Str :=
  if searchWordCI "CR" amountLine then lchars " CR"
  else if searchWordCI "DR" amountLine then lchars " DR"
  else []

/-- Exception-faithful amount computation for a found amount line, source
lines 278-297: re-match the regex, clean the amount with the CR/DR marker
appended, parse the running balance, and resolve.  `none` is an uncaught
exception: `clean_amount` can fail on a group-1 token with an unbalanced
parenthesis (e.g. `(450.00`, which matches the regex but makes Python's
`float` raise `ValueError` at line 288), and that exception propagates out
of `parse_transactions_from_lines`, aborting the whole parse (`ploopFE`
below). -/
def computeAmtPrevE (amountLine : Str) (prev : Option ℚ) :
    Option (ℚ × Option ℚ) :=
  match amtMatchRE amountLine with
  | none => none
  | some (rawAmt, rawRunbal) =>
    match clean_amount (rawAmt ++ crdrMarker amountLine) with
    | none => none
    | some amt => some (resolveAmt amt (clean_number rawRunbal) prev)

/-- Total variant of `computeAmtPrevE`, used by the total loop `ploopF`:
it papers over the exception paths (naive amount 0 where Python would
raise), so it is faithful exactly where `computeAmtPrevE` succeeds
(`computeAmtPrevE_agree`); the theorems evaluate it only there. -/
def computeAmtPrev (amountLine : Str) (prev : Option ℚ) : ℚ × Option ℚ :=
  match amtMatchRE amountLine with
  | none => (0, prev)
  | some (rawAmt, rawRunbal) =>
    let amt := (clean_amount (rawAmt ++ crdrMarker amountLine)).getD 0
    let runbal := clean_number rawRunbal
    resolveAmt amt runbal prev

/-- The `[UNTERMINATED]` diagnostic entry, source lines 306-307 (the
snippet joins the stripped opener with the raw skipped lines and is cut at
240 characters). -/
def untermEntry (line : Str) (skipped : List Str) : Str :=
  lchars "[UNTERMINATED] " ++
    (joinSep (lchars " | ") (line :: skipped)).take 240

/-- The `[DATEERR]` diagnostic entry, source line 303. -/
def dateErrEntry (day mon desc amountLine : Str) : Str :=
  lchars "[DATEERR] " ++ day ++ lchars " " ++ mon ++ lchars " :: " ++
    desc ++ lchars " :: " ++ amountLine

/-- One pass of the outer `while` loop of `parse_transactions_from_lines`,
fuelled by the iteration count: every iteration consumes at least one line,
so `lines.length` fuel always suffices (`parse_transactions_from_lines`
below instantiates it so, and `ploopF_fuel_eq` proves the surplus is never
used).  The `0, _ :: _` case is unreachable at that instantiation. -/
def ploopF (year : Int) : Nat → List Str → Option ℚ → List Txn × List Str
  | _, [], _ => ([], [])
  | 0, _ :: _, _ => ([], [])
  | fuel + 1, l :: t, prev =>
    let line := pyStrip l
    match dateMatchRE line with
    | none => ploopF year fuel t prev
    | some (day, mon, rest) =>
      let m₃ := lowerL ((pyStrip mon).take 3)
      if MONTHS_3.contains m₃ then
        let desc₀ := if rest ≠ [] then [pyStrip rest] else []
        match scanBlock t with
        | .found dps amountLine after =>
          let desc := joinWords (desc₀ ++ dps)
          let ap := computeAmtPrev amountLine prev
          let res := ploopF year fuel after ap.2
          if validDate (digitsToNat day) (monthNum m₃) year then
            (⟨year, monthNum m₃, digitsToNat day, desc, ap.1⟩ :: res.1, res.2)
          else
            (res.1, dateErrEntry day m₃ desc amountLine :: res.2)
        | .stopped _ sk rest₂ =>
          let res := ploopF year fuel rest₂ prev
          (res.1, untermEntry line sk :: res.2)
      else ploopF year fuel t prev

/-- `parse_transactions_from_lines(lines, year, opening_balance)`:
transactions and diagnostic leftovers (total embedding; see
`parse_transactions_from_linesE` for the exception semantics, and
`ploopFE_agree` for their agreement on every non-raising run). -/
def parse_transactions_from_lines
    (lines : List Str) (year : Int) (opening : Option ℚ) :
    List Txn × List Str :=
  ploopF year lines.length lines opening

/-- Exception-faithful variant of `ploopF`: an uncaught `ValueError` from
the amount computation (see `computeAmtPrevE`) propagates, so the whole
call yields `none` exactly when Python's `parse_transactions_from_lines`
raises.  The fuel behaves as in `ploopF` (the `0, _ :: _` case is
unreachable at the instantiation below). -/
def ploopFE (year : Int) :
    Nat → List Str → Option ℚ → Option (List Txn × List Str)
  | _, [], _ => some ([], [])
  | 0, _ :: _, _ => some ([], [])
  | fuel + 1, l :: t, prev =>
    let line := pyStrip l
    match dateMatchRE line with
    | none => ploopFE year fuel t prev
    | some (day, mon, rest) =>
      let m₃ := lowerL ((pyStrip mon).take 3)
      if MONTHS_3.contains m₃ then
        let desc₀ := if rest ≠ [] then [pyStrip rest] else []
        match scanBlock t with
        | .found dps amountLine after =>
          let desc := joinWords (desc₀ ++ dps)
          match computeAmtPrevE amountLine prev with
          | none => none
          | some ap =>
            match ploopFE year fuel after ap.2 with
            | none => none
            | some res =>
              if validDate (digitsToNat day) (monthNum m₃) year then
                some (⟨year, monthNum m₃, digitsToNat day, desc, ap.1⟩ ::
                  res.1, res.2)
              else
                some (res.1, dateErrEntry day m₃ desc amountLine :: res.2)
        | .stopped _ sk rest₂ =>
          match ploopFE year fuel rest₂ prev with
          | none => none
          | some res => some (res.1, untermEntry line sk :: res.2)
      else ploopFE year fuel t prev

/-- `parse_transactions_from_lines` with Python's exception semantics:
`some` is normal completion, `none` the uncaught `ValueError`. -/
def parse_transactions_from_linesE
    (lines : List Str) (year : Int) (opening : Option ℚ) :
    Option (List Txn × List Str) :=
  ploopFE year lines.length lines opening

/-! ## Reconciliation (source lines 371-383 and 423-427) -/

/-- `net = sum(a for _, _, a in txns)`. -/
def net_movement (txns : List Txn) : ℚ := (txns.map Txn.amount).sum

/-- `expected = (opening + net) if opening is not None else None`. -/
def expected_closing (opening : Option ℚ) (txns : List Txn) : Option ℚ :=
  match opening with
  | some o => some (o + net_movement txns)
  | none => none

/-- `diff = (closing - expected) if (closing is not None and expected is not
None) else None`. -/
def recon_difference (closing expected : Option ℚ) : Option ℚ :=
  match closing, expected with
  | some c, some e => some (c - e)
  | _, _ => none

/-- Line 423: a statement is flagged when its difference exists and exceeds
the tolerance; it reconciles when it is not flagged. -/
def diff_flagged (diff : Option ℚ) (tol : ℚ) : Bool :=
  match diff with
  | some d => decide (tol < |d|)
  | none => false

/-- The sidebar default tolerance, source line 336. -/
def default_tolerance : ℚ := 1/100

/-! ## Definitions following the spec's words (for refinement comparison) -/

/-- Modelled from the spec's words, for comparison with
`AMOUNT_AND_BALANCE_RE`: a token is amount-shaped iff it matches
`\d{1,3}(,\d{3})*\.\d{2}` optionally followed by a case-insensitive CR/DR
suffix (attached or as a separate token). -/
def specAmountShaped (s : Str) : Bool :=
  (reMatch
    (mBind (mRepFromTo isPyDigit 1 3) fun _ =>
     mBind commaGroupsM fun _ =>
     mBind fracM fun _ =>
     mBind (mOptU (mBind (mRepFrom isPySpace 0) fun _ =>
                   mBind (mOr (mLitCI "CR") (mLitCI "DR")) fun _ =>
                   mPure ())) fun _ =>
     mBind mEnd fun _ =>
     mPure ()) s).isSome

/-- Modelled from the spec's words, for the year-resolution comparison: the
text holds a bare 4-digit year token starting with `20`. -/
def hasBare20Year (s : Str) : Bool :=
  (reSearch
    (mBind mWordB fun _ =>
     mBind (mLitCS "20") fun _ =>
     mBind (mRepFromTo isPyDigit 2 2) fun _ =>
     mBind mWordB fun _ =>
     mPure ()) s).isSome

/-! ## Helper lemmas -/

/-- A matcher whose outcomes only ever consume input: every resulting rest
is a suffix of the input. -/
def SuffixClosed (m : Mtch α) : Prop :=
  ∀ {p : Option Char} {r : List Char} {o : α × Option Char × List Char},
    o ∈ m p r → o.2.2 <:+ r

theorem sc_mPure (a : α) : SuffixClosed (mPure a) := by
  intro p r o h
  simp only [mPure, List.mem_singleton] at h
  subst h
  exact List.suffix_rfl

theorem sc_mBind {m : Mtch α} {f : α → Mtch β} (h₁ : SuffixClosed m)
    (h₂ : ∀ a, SuffixClosed (f a)) : SuffixClosed (mBind m f) := by
  intro p r o h
  simp only [mBind, List.mem_flatMap] at h
  obtain ⟨o₁, ho₁, ho⟩ := h
  exact List.IsSuffix.trans (h₂ o₁.1 ho) (h₁ ho₁)

theorem sc_mOr {m₁ m₂ : Mtch α} (h₁ : SuffixClosed m₁)
    (h₂ : SuffixClosed m₂) : SuffixClosed (mOr m₁ m₂) := by
  intro p r o h
  simp only [mOr, List.mem_append] at h
  cases h with
  | inl h => exact h₁ h
  | inr h => exact h₂ h

theorem sc_mChar (q : Char → Bool) : SuffixClosed (mChar q) := by
  intro p r o h
  cases r with
  | nil => simp [mChar] at h
  | cons c t =>
    simp only [mChar] at h
    by_cases hq : q c
    · simp only [hq, if_pos, List.mem_singleton] at h
      subst h
      exact List.suffix_cons c t
    · simp [hq] at h

theorem sc_mLitCI (w : String) : SuffixClosed (mLitCI w) := by
  intro p r o h
  simp only [mLitCI] at h
  split at h
  · simp only [List.mem_singleton] at h
    subst h
    exact List.drop_suffix _ _
  · simp at h

theorem sc_mLitCS (w : String) : SuffixClosed (mLitCS w) := by
  intro p r o h
  simp only [mLitCS] at h
  split at h
  · simp only [List.mem_singleton] at h
    subst h
    exact List.drop_suffix _ _
  · simp at h

theorem sc_mRepFromTo (q : Char → Bool) (lo hi : Nat) :
    SuffixClosed (mRepFromTo q lo hi) := by
  intro p r o h
  simp only [mRepFromTo, List.mem_filterMap] at h
  obtain ⟨k, _, hk⟩ := h
  split at hk
  · cases hk
    exact List.drop_suffix _ _
  · cases hk

theorem sc_mRepFrom (q : Char → Bool) (lo : Nat) :
    SuffixClosed (mRepFrom q lo) := by
  intro p r o h
  simp only [mRepFrom, List.mem_filterMap] at h
  obtain ⟨k, _, hk⟩ := h
  split at hk
  · cases hk
    exact List.drop_suffix _ _
  · cases hk

theorem sc_mDotsLazy (d : Bool) : SuffixClosed (mDotsLazy d) := by
  intro p r o h
  simp only [mDotsLazy, List.mem_filterMap] at h
  obtain ⟨k, _, hk⟩ := h
  split at hk
  · cases hk
    exact List.drop_suffix _ _
  · cases hk

theorem sc_mWordB : SuffixClosed mWordB := by
  intro p r o h
  simp only [mWordB] at h
  split at h
  · simp only [List.mem_singleton] at h
    subst h
    exact List.suffix_rfl
  · simp at h

theorem sc_mEnd : SuffixClosed mEnd := by
  intro p r o h
  simp only [mEnd] at h
  split at h
  · simp only [List.mem_singleton] at h
    subst h
    exact List.suffix_rfl
  · simp at h

theorem sc_mOpt1 {m : Mtch Char} (h : SuffixClosed m) :
    SuffixClosed (mOpt1 m) :=
  sc_mOr (sc_mBind h (fun c => sc_mPure [c])) (sc_mPure [])

theorem sc_mOptL {m : Mtch Str} (h : SuffixClosed m) :
    SuffixClosed (mOptL m) :=
  sc_mOr h (sc_mPure [])

theorem sc_mOptU {m : Mtch Unit} (h : SuffixClosed m) :
    SuffixClosed (mOptU m) :=
  sc_mOr h (sc_mPure ())

theorem sc_commaGroupsM : SuffixClosed commaGroupsM := by
  intro p r o h
  simp only [commaGroupsM, List.mem_map] at h
  obtain ⟨k, _, hk⟩ := h
  subst hk
  exact List.drop_suffix _ _

theorem sc_crdrWordCS : SuffixClosed crdrWordCS :=
  sc_mBind sc_mWordB fun _ =>
    sc_mBind (sc_mOr (sc_mLitCS "CR") (sc_mLitCS "DR")) fun _ =>
      sc_mBind sc_mWordB fun _ => sc_mPure ()

theorem sc_pieceLeadCRDR : SuffixClosed pieceLeadCRDR :=
  sc_mOptU (sc_mBind (sc_mDotsLazy false) fun _ =>
    sc_mBind sc_crdrWordCS fun _ =>
      sc_mBind (sc_mRepFrom isPySpace 0) fun _ => sc_mPure ())

theorem sc_pieceLeadR : SuffixClosed pieceLeadR :=
  sc_mOptU (sc_mBind (sc_mDotsLazy false) fun _ =>
    sc_mBind sc_mWordB fun _ =>
      sc_mBind (sc_mChar fun c => c = 'R' || c = 'r') fun _ =>
        sc_mBind (sc_mRepFrom isPySpace 0) fun _ => sc_mPure ())

/-- Every outcome of the numeric-token matcher starts from an input holding
a digit: the `\d{1,3}` core is mandatory. -/
theorem numTokM_any_digit {p : Option Char} {r : List Char}
    {o : Str × Option Char × List Char} (h : o ∈ numTokM p r) :
    r.any isPyDigit = true := by
  simp only [numTokM, mBind, List.mem_flatMap] at h
  obtain ⟨o₁, ho₁, h⟩ := h
  obtain ⟨o₂, ho₂, h⟩ := h
  obtain ⟨o₃, ho₃, _⟩ := h
  have hr₁ : o₁.2.2 <:+ r := sc_mOpt1 (sc_mChar _) ho₁
  have hr₂ : o₂.2.2 <:+ o₁.2.2 := sc_mOpt1 (sc_mChar _) ho₂
  simp only [mRepFromTo, List.mem_filterMap] at ho₃
  obtain ⟨k, hkmem, hk⟩ := ho₃
  split at hk
  case isTrue hk1 =>
    cases hk
    simp only [List.mem_reverse, List.mem_range] at hkmem
    set r₂ := o₂.2.2 with hr₂eq
    have hkw : k ≤ (r₂.takeWhile isPyDigit).length := by
      have := Nat.lt_succ_iff.mp hkmem
      exact le_trans this (min_le_right _ _)
    have hne : r₂.take k ≠ [] := by
      have hlen : 1 ≤ r₂.length := by
        have := le_trans hkw (List.takeWhile_prefix _).sublist.length_le
        omega
      intro he
      have := congrArg List.length he
      simp only [List.length_take, List.length_nil] at this
      omega
    obtain ⟨c, hc⟩ := List.exists_mem_of_ne_nil _ hne
    have hcq : isPyDigit c = true := by
      have htak : r₂.take k = (r₂.takeWhile isPyDigit).take k := by
        have hpfx : r₂.takeWhile isPyDigit <+: r₂ := List.takeWhile_prefix _
        rw [List.prefix_iff_eq_take.mp hpfx, List.take_take,
          Nat.min_eq_left hkw]
      rw [htak] at hc
      exact List.mem_takeWhile_imp (List.take_subset _ _ hc)
    have hcr : c ∈ r := by
      have h₁ : c ∈ r₂ := List.take_subset _ _ hc
      exact (hr₁.sublist.subset (hr₂.sublist.subset h₁))
    rw [List.any_eq_true]
    exact ⟨c, hcr, hcq⟩
  case isFalse => cases hk

/-- Every string accepted by `AMOUNT_AND_BALANCE_RE` holds a digit. -/
theorem amtMatchRE_any_digit (s : Str) (h : (amtMatchRE s).isSome = true) :
    s.any isPyDigit = true := by
  simp only [amtMatchRE, reMatch] at h
  cases ho : (amountBalanceM none s).head? with
  | none =>
    rw [ho] at h
    simp at h
  | some o =>
  have hmem : o ∈ amountBalanceM none s := List.mem_of_mem_head? ho
  simp only [amountBalanceM, mBind, List.mem_flatMap] at hmem
  obtain ⟨o₁, ho₁, hmem⟩ := hmem
  obtain ⟨o₂, ho₂, hmem⟩ := hmem
  obtain ⟨o₃, ho₃, _⟩ := hmem
  have hd := numTokM_any_digit ho₃
  have hr₁ : o₁.2.2 <:+ s := sc_pieceLeadCRDR ho₁
  have hr₂ : o₂.2.2 <:+ o₁.2.2 := sc_pieceLeadR ho₂
  rw [List.any_eq_true] at hd ⊢
  obtain ⟨c, hc, hcq⟩ := hd
  exact ⟨c, hr₁.sublist.subset (hr₂.sublist.subset hc), hcq⟩

/-- The inner scan never lengthens the remaining suffix (stopped case). -/
theorem scanBlock_stopped_len {t : List Str} {dps sk rest : List Str}
    (h : scanBlock t = .stopped dps sk rest) : rest.length ≤ t.length := by
  induction t generalizing dps sk rest with
  | nil =>
    simp only [scanBlock, ScanOut.stopped.injEq] at h
    simp [h.2.2]
  | cons l t ih =>
    simp only [scanBlock] at h
    by_cases h₁ : (dateMatchRE (pyStrip l)).isSome
    · simp only [h₁, if_pos, ScanOut.stopped.injEq] at h
      simp [← h.2.2]
    · simp only [h₁, Bool.false_eq_true, if_false] at h
      by_cases h₂ : (amtMatchRE (pyStrip l)).isSome
      · simp only [h₂, if_pos] at h
        exact absurd h (by simp)
      · simp only [h₂, Bool.false_eq_true, if_false] at h
        cases hs : scanBlock t with
        | found dps' a af =>
          rw [hs] at h
          exact absurd h (by simp)
        | stopped dps' sk' r' =>
          rw [hs] at h
          simp only [ScanOut.stopped.injEq] at h
          rw [← h.2.2]
          exact le_trans (ih hs) (Nat.le_succ _)

/-- The inner scan never lengthens the remaining suffix (found case). -/
theorem scanBlock_found_len {t : List Str} {dps : List Str} {a : Str}
    {after : List Str} (h : scanBlock t = .found dps a after) :
    after.length ≤ t.length := by
  induction t generalizing dps a after with
  | nil => exact absurd h (by simp [scanBlock])
  | cons l t ih =>
    simp only [scanBlock] at h
    by_cases h₁ : (dateMatchRE (pyStrip l)).isSome
    · simp only [h₁, if_pos] at h
      exact absurd h (by simp)
    · simp only [h₁, Bool.false_eq_true, if_false] at h
      by_cases h₂ : (amtMatchRE (pyStrip l)).isSome
      · simp only [h₂, if_pos, ScanOut.found.injEq] at h
        rw [← h.2.2]
        exact Nat.le_succ _
      · simp only [h₂, Bool.false_eq_true, if_false] at h
        cases hs : scanBlock t with
        | found dps' a' af' =>
          rw [hs] at h
          simp only [ScanOut.found.injEq] at h
          rw [← h.2.2]
          exact le_trans (ih hs) (Nat.le_succ _)
        | stopped dps' sk' r' =>
          rw [hs] at h
          exact absurd h (by simp)

/-- The fuelled loop on an empty line list. -/
theorem ploopF_nil (year : Int) (f : Nat) (prev : Option ℚ) :
    ploopF year f [] prev = ([], []) := by
  cases f <;> rfl

/-- Any two sufficient fuels give the same run: each iteration of the outer
loop consumes at least one line, so the extra fuel is never touched. -/
theorem ploopF_fuel_eq (year : Int) :
    ∀ (n : Nat) (lines : List Str), lines.length ≤ n →
    ∀ (f₁ f₂ : Nat) (prev : Option ℚ), lines.length ≤ f₁ →
      lines.length ≤ f₂ →
      ploopF year f₁ lines prev = ploopF year f₂ lines prev := by
  intro n
  induction n with
  | zero =>
    intro lines hn f₁ f₂ prev h₁ h₂
    have : lines = [] := List.length_eq_zero.mp (Nat.le_zero.mp hn)
    subst this
    rw [ploopF_nil, ploopF_nil]
  | succ n ih =>
    intro lines hn f₁ f₂ prev h₁ h₂
    match lines with
    | [] => rw [ploopF_nil, ploopF_nil]
    | l :: t =>
      match f₁, h₁ with
      | a + 1, h₁ =>
        match f₂, h₂ with
        | b + 1, h₂ =>
          have hta : t.length ≤ a := Nat.succ_le_succ_iff.mp h₁
          have htb : t.length ≤ b := Nat.succ_le_succ_iff.mp h₂
          have htn : t.length ≤ n := Nat.succ_le_succ_iff.mp hn
          simp only [ploopF]
          cases hd : dateMatchRE (pyStrip l) with
          | none => exact ih t htn a b prev hta htb
          | some g =>
            obtain ⟨day, mon, rest⟩ := g
            by_cases hm : MONTHS_3.contains (lowerL ((pyStrip mon).take 3))
            · simp only [hm, if_pos]
              cases hs : scanBlock t with
              | found dps amountLine after =>
                have hlen := scanBlock_found_len hs
                simp only
                rw [ih after (le_trans hlen htn) a b
                      (computeAmtPrev amountLine prev).2
                      (le_trans hlen hta) (le_trans hlen htb)]
              | stopped dps sk rest₂ =>
                have hlen := scanBlock_stopped_len hs
                simp only
                rw [ih rest₂ (le_trans hlen htn) a b prev
                      (le_trans hlen hta) (le_trans hlen htb)]
            · simp only [hm, Bool.false_eq_true, if_false]
              exact ih t htn a b prev hta htb

/-- A sufficient fuel runs the loop exactly as
`parse_transactions_from_lines` does. -/
theorem ploopF_eq_parse (year : Int) (f : Nat) (lines : List Str)
    (prev : Option ℚ) (h : lines.length ≤ f) :
    ploopF year f lines prev = parse_transactions_from_lines lines year prev :=
  ploopF_fuel_eq year f lines h f lines.length prev h le_rfl

/-- The exception-faithful loop on an empty line list. -/
theorem ploopFE_nil (year : Int) (f : Nat) (prev : Option ℚ) :
    ploopFE year f [] prev = some ([], []) := by
  cases f <;> rfl

/-- Fuel irrelevance for the exception-faithful loop, as for `ploopF`. -/
theorem ploopFE_fuel_eq (year : Int) :
    ∀ (n : Nat) (lines : List Str), lines.length ≤ n →
    ∀ (f₁ f₂ : Nat) (prev : Option ℚ), lines.length ≤ f₁ →
      lines.length ≤ f₂ →
      ploopFE year f₁ lines prev = ploopFE year f₂ lines prev := by
  intro n
  induction n with
  | zero =>
    intro lines hn f₁ f₂ prev h₁ h₂
    have : lines = [] := List.length_eq_zero.mp (Nat.le_zero.mp hn)
    subst this
    rw [ploopFE_nil, ploopFE_nil]
  | succ n ih =>
    intro lines hn f₁ f₂ prev h₁ h₂
    match lines with
    | [] => rw [ploopFE_nil, ploopFE_nil]
    | l :: t =>
      match f₁, h₁ with
      | a + 1, h₁ =>
        match f₂, h₂ with
        | b + 1, h₂ =>
          have hta : t.length ≤ a := Nat.succ_le_succ_iff.mp h₁
          have htb : t.length ≤ b := Nat.succ_le_succ_iff.mp h₂
          have htn : t.length ≤ n := Nat.succ_le_succ_iff.mp hn
          simp only [ploopFE]
          cases hd : dateMatchRE (pyStrip l) with
          | none => exact ih t htn a b prev hta htb
          | some g =>
            obtain ⟨day, mon, rest⟩ := g
            by_cases hm : MONTHS_3.contains (lowerL ((pyStrip mon).take 3))
            · simp only [hm, if_pos]
              cases hs : scanBlock t with
              | found dps amountLine after =>
                have hlen := scanBlock_found_len hs
                simp only
                cases hap : computeAmtPrevE amountLine prev with
                | none => rfl
                | some ap =>
                  simp only
                  rw [ih after (le_trans hlen htn) a b ap.2
                        (le_trans hlen hta) (le_trans hlen htb)]
              | stopped dps sk rest₂ =>
                have hlen := scanBlock_stopped_len hs
                simp only
                rw [ih rest₂ (le_trans hlen htn) a b prev
                      (le_trans hlen hta) (le_trans hlen htb)]
            · simp only [hm, Bool.false_eq_true, if_false]
              exact ih t htn a b prev hta htb

/-- A sufficient fuel runs the exception-faithful loop exactly as
`parse_transactions_from_linesE` does. -/
theorem ploopFE_eq_parse (year : Int) (f : Nat) (lines : List Str)
    (prev : Option ℚ) (h : lines.length ≤ f) :
    ploopFE year f lines prev =
      parse_transactions_from_linesE lines year prev :=
  ploopFE_fuel_eq year f lines h f lines.length prev h le_rfl

/-- Wherever the exception-faithful amount computation completes, the total
one agrees with it. -/
theorem computeAmtPrevE_agree {amountLine : Str} {prev : Option ℚ}
    {r : ℚ × Option ℚ} (h : computeAmtPrevE amountLine prev = some r) :
    computeAmtPrev amountLine prev = r := by
  cases ha : amtMatchRE amountLine with
  | none =>
    simp only [computeAmtPrevE, ha] at h
    simp at h
  | some g =>
    obtain ⟨rawAmt, rawRunbal⟩ := g
    cases hc : clean_amount (rawAmt ++ crdrMarker amountLine) with
    | none =>
      simp only [computeAmtPrevE, ha, hc] at h
      simp at h
    | some amt =>
      simp only [computeAmtPrevE, ha, hc, Option.some.injEq] at h
      simp only [computeAmtPrev, ha, hc, Option.getD_some]
      exact h

/-- On every run where Python raises no exception, the total loop computes
exactly what the exception-faithful loop does. -/
theorem ploopFE_agree (year : Int) :
    ∀ (fuel : Nat) (lines : List Str) (prev : Option ℚ)
      (out : List Txn × List Str),
      ploopFE year fuel lines prev = some out →
      ploopF year fuel lines prev = out := by
  intro fuel
  induction fuel with
  | zero =>
    intro lines prev out h
    cases lines with
    | nil =>
      rw [ploopFE_nil] at h
      cases h
      rw [ploopF_nil]
    | cons l t =>
      simp only [ploopFE, Option.some.injEq] at h
      simp only [ploopF]
      exact h
  | succ n ih =>
    intro lines prev out h
    cases lines with
    | nil =>
      rw [ploopFE_nil] at h
      cases h
      rw [ploopF_nil]
    | cons l t =>
      simp only [ploopFE] at h
      simp only [ploopF]
      cases hd : dateMatchRE (pyStrip l) with
      | none =>
        rw [hd] at h
        exact ih t prev out h
      | some g =>
        obtain ⟨day, mon, rest⟩ := g
        rw [hd] at h
        by_cases hm : MONTHS_3.contains (lowerL ((pyStrip mon).take 3))
        · simp only [hm, if_pos] at h ⊢
          cases hs : scanBlock t with
          | found dps amountLine after =>
            rw [hs] at h
            simp only at h ⊢
            cases hap : computeAmtPrevE amountLine prev with
            | none =>
              rw [hap] at h
              simp at h
            | some ap =>
              rw [hap] at h
              simp only at h
              rw [computeAmtPrevE_agree hap]
              cases hrec : ploopFE year n after ap.2 with
              | none =>
                rw [hrec] at h
                simp at h
              | some res =>
                rw [hrec] at h
                rw [ih after ap.2 res hrec]
                by_cases hv :
                    validDate (digitsToNat day)
                      (monthNum (lowerL ((pyStrip mon).take 3))) year
                · simp only [hv, if_pos, Option.some.injEq] at h ⊢
                  exact h
                · simp only [hv, Bool.false_eq_true, if_false,
                    Option.some.injEq] at h ⊢
                  exact h
          | stopped dps sk rest₂ =>
            rw [hs] at h
            simp only at h ⊢
            cases hrec : ploopFE year n rest₂ prev with
            | none =>
              rw [hrec] at h
              simp at h
            | some res =>
              rw [hrec] at h
              simp only [Option.some.injEq] at h
              rw [ih rest₂ prev res hrec]
              exact h
        · simp only [hm, Bool.false_eq_true, if_false] at h ⊢
          exact ih t prev out h

/-- `parse_transactions_from_lines` agrees with the exception-faithful
parser on every completing run. -/
theorem parse_transactions_agree (lines : List Str) (year : Int)
    (opening : Option ℚ) (out : List Txn × List Str)
    (h : parse_transactions_from_linesE lines year opening = some out) :
    parse_transactions_from_lines lines year opening = out :=
  ploopFE_agree year lines.length lines opening out h

/-- The exception path is real: an unbalanced-parenthesis token matches
`AMOUNT_AND_BALANCE_RE` as group 1, Python's `float` then fails on it
(`clean_amount` is `none`), and the whole parse aborts. -/
theorem parseE_raises_on_unbalanced_paren :
    amtMatchRE (lchars "(450.00 650.00") =
      some (lchars "(450.00", some (lchars "650.00")) ∧
    clean_amount (lchars "(450.00") = none ∧
    parse_transactions_from_linesE
      [lchars "01 Jan A", lchars "(450.00 650.00"] 2024 (some 800) =
      none := by
  refine ⟨?_, ?_, ?_⟩ <;> with_unfolding_all decide

/-- Collapsing blank runs only drops lines. -/
theorem collapseBlanks_sublist : ∀ (b : Bool) (l : List Str),
    (collapseBlanks b l).Sublist l := by
  intro b l
  induction l generalizing b with
  | nil => simp [collapseBlanks]
  | cons s t ih =>
    simp only [collapseBlanks]
    by_cases hs : s = []
    · simp only [hs, if_pos]
      by_cases hb : b
      · simp only [hb, if_pos]
        exact List.Sublist.trans (ih true) (List.sublist_cons_self _ _)
      · simp only [hb, Bool.false_eq_true, if_false]
        exact List.Sublist.cons₂ _ (ih true)
    · simp only [hs, if_neg, Bool.false_eq_true, if_false]
      exact List.Sublist.cons₂ _ (ih false)

/-- The extractor's output is a sublist of the stripped input lines. -/
theorem tokenize_lines_sublist (input : List Str) :
    (tokenize_lines input).Sublist (input.map pyStrip) :=
  List.Sublist.trans (collapseBlanks_sublist false _) (List.filter_sublist _)

/-! ## The claims -/

set_option maxRecDepth 40000

/-- C1: whenever an amount line carries a running balance, a previous
running balance is available (the prior row's, or the opening balance for
the first row), and the row's amount computation completes (Python's
`float` at line 288 does not raise: `clean_amount` succeeds on the group-1
token with its marker), the resolved signed amount is the running-balance
delta `round(this − previous, 2)` regardless of any CR/DR marker on the
line: `computeAmtPrevE` is the exception-faithful amount computation of
the loop body (lines 278-297), and for a transaction block completing at
such a line the exception-faithful parser emits exactly that delta and
threads the new running balance into the rest (a row where `float` raises
aborts the parse instead and resolves nothing, see
`parseE_raises_on_unbalanced_paren`). -/
theorem c1_running_balance_delta_wins
    (l : Str) (t : List Str) (year : Int) (p rb a₀ : ℚ) (d m r : Str)
    (dps : List Str) (amountLine : Str) (after : List Str) (g₁ g₂ : Str)
    (hdate : dateMatchRE (pyStrip l) = some (d, m, r))
    (hmon : MONTHS_3.contains (lowerL ((pyStrip m).take 3)) = true)
    (hscan : scanBlock t = .found dps amountLine after)
    (hamt : amtMatchRE amountLine = some (g₁, some g₂))
    (hnaive : clean_amount (g₁ ++ crdrMarker amountLine) = some a₀)
    (hrb : clean_number (some g₂) = some rb)
    (hvalid : validDate (digitsToNat d)
      (monthNum (lowerL ((pyStrip m).take 3))) year = true) :
    computeAmtPrevE amountLine (some p) =
      some (pyRound2 (rb - p), some rb) ∧
    parse_transactions_from_linesE (l :: t) year (some p) =
      Option.map (fun res =>
          (⟨year, monthNum (lowerL ((pyStrip m).take 3)), digitsToNat d,
            joinWords ((if r ≠ [] then [pyStrip r] else []) ++ dps),
            pyRound2 (rb - p)⟩ :: res.1, res.2))
        (parse_transactions_from_linesE after year (some rb)) := by
  have hE : computeAmtPrevE amountLine (some p) =
      some (pyRound2 (rb - p), some rb) := by
    simp only [computeAmtPrevE, hamt, hnaive, hrb, resolveAmt]
  refine ⟨hE, ?_⟩
  have hstart :
      parse_transactions_from_linesE (l :: t) year (some p) =
        ploopFE year (t.length + 1) (l :: t) (some p) := rfl
  rw [hstart]
  simp only [ploopFE, hdate, hmon, hscan, if_pos, hE, hvalid]
  rw [ploopFE_eq_parse year t.length after (some rb)
    (scanBlock_found_len hscan)]
  cases parse_transactions_from_linesE after year (some rb) <;> rfl

/-- C1 witness: on the block `01 Jan A` / `100.00 650.00 CR` (the CR
marker gives the naive amount `+100`, which parses fine) with previous
running balance 800, the emitted amount is the delta
`round(650 − 800, 2) = −150`: the marker loses. -/
theorem c1_running_balance_delta_wins_witness :
    computeAmtPrevE (lchars "100.00 650.00 CR") (some 800) =
      some (pyRound2 ((650 : ℚ) - 800), some 650) ∧
    parse_transactions_from_linesE
      [lchars "01 Jan A", lchars "100.00 650.00 CR"] 2024 (some 800) =
      Option.map (fun res =>
          (⟨2024, monthNum (lowerL ((pyStrip (lchars "Jan")).take 3)),
            digitsToNat (lchars "01"),
            joinWords
              ((if (lchars " A") ≠ [] then [pyStrip (lchars " A")] else []) ++ []),
            pyRound2 ((650 : ℚ) - 800)⟩ :: res.1, res.2))
        (parse_transactions_from_linesE [] 2024 (some 650)) :=
  c1_running_balance_delta_wins (lchars "01 Jan A")
    [lchars "100.00 650.00 CR"] 2024 800 650 100
    (lchars "01") (lchars "Jan") (lchars " A") []
    (lchars "100.00 650.00 CR") [] (lchars "100.00") (lchars "650.00")
    (by with_unfolding_all decide) (by with_unfolding_all decide)
    (by with_unfolding_all decide) (by with_unfolding_all decide)
    (by with_unfolding_all decide) (by with_unfolding_all decide)
    (by with_unfolding_all decide)


/-- C2 counterexample: the claim says the previous-running-balance state
advances to the row's running balance whenever that balance is present,
even if the previous one was undefined.  With no opening balance, the row
`100.00 500.00` (running balance 500) does not start the chain: the second
transaction keeps its naive amount 50 instead of the chain delta
`round(600 − 500, 2) = 100`. -/
theorem c2_chain_stays_dead_counterexample :
    parse_transactions_from_lines
      [lchars "01 Jan A", lchars "100.00 500.00",
       lchars "02 Jan B", lchars "50.00 600.00"] 2024 none =
      ([⟨2024, 1, 1, lchars "A", 100⟩, ⟨2024, 1, 2, lchars "B", 50⟩], []) ∧
    (50 : ℚ) ≠ pyRound2 (600 - 500) := by
  constructor
  · with_unfolding_all decide
  · with_unfolding_all decide

/-- C2 amended: the previous-running-balance state advances to the row's
running balance exactly when both that running balance and a previous value
are defined; when the previous value is undefined (no opening balance and
no earlier advance) the state stays undefined, and rows without a running
balance leave it untouched — shown both on the state update `resolveAmt`
(lines 291-297) and on whole amount lines through `computeAmtPrev`. -/
theorem c2_advance_requires_both_balances (a rb p : ℚ) (prev : Option ℚ) :
    (resolveAmt a (some rb) (some p)).2 = some rb ∧
    (resolveAmt a (some rb) none).2 = none ∧
    (resolveAmt a none prev).2 = prev ∧
    (computeAmtPrev (lchars "100.00 650.00") (some 500)).2 = some 650 ∧
    (computeAmtPrev (lchars "100.00 650.00") none).2 = none ∧
    (computeAmtPrev (lchars "450.00") (some 500)).2 = some 500 := by
  refine ⟨rfl, rfl, ?_, ?_, ?_, ?_⟩
  · cases prev <;> rfl
  · with_unfolding_all decide
  · with_unfolding_all decide
  · with_unfolding_all decide

/-- C3 counterexample: the claim says a marker-less amount is negative
(debit default) and that the stitched example yields −450.00; the code's
`clean_amount` keeps unmarked values positive, so the example yields
+450.00. -/
theorem c3_unmarked_amount_positive_counterexample :
    parse_transactions_from_lines
      [lchars "05 Feb POS PURCHASE", lchars "WOOLWORTHS SANDTON",
       lchars "450.00"] 2024 none =
      ([⟨2024, 2, 5, lchars "POS PURCHASE WOOLWORTHS SANDTON", 450⟩], []) ∧
    (450 : ℚ) ≠ -450 := by
  constructor
  · with_unfolding_all decide
  · with_unfolding_all decide

/-- C3 amended: for marker-derived signs, CR forces positive and DR forces
negative, but the absence of any marker keeps the parsed value (positive
for the unsigned tokens of this format) — debit is not the default; the
stitching example yields the description
`POS PURCHASE WOOLWORTHS SANDTON` with amount +450.00. -/
theorem c3_marker_sign_rule :
    (∀ (dr neg : Bool) (v : ℚ), applySign true dr neg v = |v|) ∧
    (∀ (neg : Bool) (v : ℚ), applySign false true neg v = -|v|) ∧
    (∀ v : ℚ, applySign false false false v = v) ∧
    clean_amount (lchars "450.00 CR") = some 450 ∧
    clean_amount (lchars "450.00 DR") = some (-450) ∧
    clean_amount (lchars "450.00") = some 450 ∧
    (parse_transactions_from_lines
      [lchars "05 Feb POS PURCHASE", lchars "WOOLWORTHS SANDTON",
       lchars "450.00"] 2024 none).1.map Txn.desc =
      [lchars "POS PURCHASE WOOLWORTHS SANDTON"] ∧
    (parse_transactions_from_lines
      [lchars "05 Feb POS PURCHASE", lchars "WOOLWORTHS SANDTON",
       lchars "450.00"] 2024 none).1.map Txn.amount = [450] := by
  refine ⟨fun dr neg v => rfl, fun neg v => rfl, fun v => rfl, ?_, ?_, ?_, ?_, ?_⟩
  · with_unfolding_all decide
  · with_unfolding_all decide
  · with_unfolding_all decide
  · with_unfolding_all decide
  · with_unfolding_all decide

/-- C4 counterexample: the claim says a token is amount-shaped iff it has
exactly two fractional digits, so a bare integer is never amount-shaped;
but `AMOUNT_AND_BALANCE_RE` makes the fractional part optional, and the
bare integer `450` matches (while the spec-shaped matcher rejects it). -/
theorem c4_bare_integer_amount_shaped_counterexample :
    (amtMatchRE (lchars "450")).isSome = true ∧
    specAmountShaped (lchars "450") = false := by
  constructor
  · with_unfolding_all decide
  · with_unfolding_all decide

/-- C4 amended: a token terminates a transaction block iff it matches
`AMOUNT_AND_BALANCE_RE`, whose numeric core is
`\(?-?\d{1,3}(,\d{3})*(\.\d{2})?\)?` — the two fractional digits are
optional (so bare integers are amount-shaped), parentheses, a minus and an
`R` currency marker are tolerated, and the CR/DR affixes are matched
case-sensitively (uppercase only), not case-insensitively; every
amount-shaped token holds at least one digit. -/
theorem c4_amount_shape :
    (∀ s : Str, (amtMatchRE s).isSome = true → s.any isPyDigit = true) ∧
    (amtMatchRE (lchars "450")).isSome = true ∧
    amtMatchRE (lchars "1234") = none ∧
    amtMatchRE (lchars "450.00") = some (lchars "450.00", none) ∧
    amtMatchRE (lchars "1,234.56 DR") = some (lchars "1,234.56", none) ∧
    amtMatchRE (lchars "(1,234.56)") = some (lchars "(1,234.56)", none) ∧
    amtMatchRE (lchars "R 450.00") = some (lchars "450.00", none) ∧
    amtMatchRE (lchars "450.00 cr") = none ∧
    amtMatchRE (lchars "abc") = none ∧
    amtMatchRE (lchars "450.00 1,500.00") =
      some (lchars "450.00", some (lchars "1,500.00")) ∧
    specAmountShaped (lchars "450.00") = true ∧
    specAmountShaped (lchars "450.00 cr") = true := by
  refine ⟨amtMatchRE_any_digit, ?_, ?_, ?_, ?_, ?_, ?_, ?_, ?_, ?_, ?_, ?_⟩ <;>
    with_unfolding_all decide

/-- C5: a date-opening row whose block never reaches an amount line before
the next date-opening row (or the end) is recorded as an `[UNTERMINATED]`
diagnostic entry, excluded from the ledger, and processing continues at the
stop point; in particular the three-line example yields exactly one
diagnostic entry and exactly one transaction (the second), with no
exception (the embedding is total on such inputs). -/
theorem c5_unterminated_diagnostic :
    (∀ (l : Str) (t : List Str) (year : Int) (prev : Option ℚ)
       (d m r : Str) (dps sk rest : List Str),
       dateMatchRE (pyStrip l) = some (d, m, r) →
       MONTHS_3.contains (lowerL ((pyStrip m).take 3)) = true →
       scanBlock t = .stopped dps sk rest →
       parse_transactions_from_lines (l :: t) year prev =
         ((parse_transactions_from_lines rest year prev).1,
          untermEntry (pyStrip l) sk ::
            (parse_transactions_from_lines rest year prev).2)) ∧
    parse_transactions_from_lines
      [lchars "03 Jan Some Purchase", lchars "04 Jan Another Purchase",
       lchars "150.00"] 2024 none =
      ([⟨2024, 1, 4, lchars "Another Purchase", 150⟩],
       [lchars "[UNTERMINATED] 03 Jan Some Purchase"]) := by
  constructor
  · intro l t year prev d m r dps sk rest h₁ h₂ h₃
    have hstart :
        parse_transactions_from_lines (l :: t) year prev =
          ploopF year (t.length + 1) (l :: t) prev := rfl
    rw [hstart]
    simp only [ploopF, h₁, h₂, h₃, if_pos]
    rw [ploopF_eq_parse year t.length rest prev (scanBlock_stopped_len h₃)]
  · with_unfolding_all decide

/-- C6: the reconciliation report computes `net` as the sum of the
transaction amounts, `expected_closing = opening + net` only when an
opening balance is present, `difference = actual_closing − expected_closing`
only when both closings are present, leaves the dependent fields undefined
(not zero) when a balance is missing, and flags a statement exactly when
its defined difference exceeds the tolerance (default 0.01). -/
theorem c6_reconciliation_fields (txns : List Txn) (o c tol d : ℚ) :
    net_movement txns = (txns.map Txn.amount).sum ∧
    expected_closing none txns = none ∧
    expected_closing (some o) txns = some (o + net_movement txns) ∧
    recon_difference none (expected_closing (some o) txns) = none ∧
    recon_difference (some c) none = none ∧
    recon_difference (some c) (expected_closing (some o) txns) =
      some (c - (o + net_movement txns)) ∧
    (diff_flagged (some d) tol = false ↔ |d| ≤ tol) ∧
    diff_flagged none tol = false ∧
    default_tolerance = 1/100 := by
  refine ⟨rfl, rfl, rfl, rfl, rfl, rfl, ?_, rfl, rfl⟩
  simp only [diff_flagged, decide_eq_false_iff_not, not_lt]

/-- C7 counterexample: the claim includes a fourth priority, a bare 4-digit
`20xx` token, before the current-year fallback; the code has only the three
declaration patterns, so a text whose only year evidence is a bare `2023`
resolves to the fallback year, not 2023. -/
theorem c7_no_bare_year_counterexample :
    hasBare20Year (lchars "Totals for 2023") = true ∧
    try_parse_statement_year (lchars "Totals for 2023") = none ∧
    resolveYear (lchars "Totals for 2023") 2026 = 2026 ∧
    (2026 : Nat) ≠ 2023 := by
  refine ⟨?_, ?_, ?_, ?_⟩ <;> with_unfolding_all decide

/-- C7 amended: the statement year is the first match of, in priority
order, the `Statement Date: DD Month YYYY` pattern, the
`Period/From ... to ... YYYY` pattern (ending year), and the
`as at DD Month YYYY` pattern; there is no bare-year step, and only when
all three fail (or yield the falsy year 0) does the caller fall back to the
current calendar year. -/
theorem c7_year_priority (text : Str) (cur y : Nat) :
    (reSearch stmtDateM text = some y →
      try_parse_statement_year text = some y) ∧
    (reSearch stmtDateM text = none → reSearch periodToM text = some y →
      try_parse_statement_year text = some y) ∧
    (reSearch stmtDateM text = none → reSearch periodToM text = none →
      try_parse_statement_year text = reSearch asAtM text) ∧
    (try_parse_statement_year text = none → resolveYear text cur = cur) ∧
    (try_parse_statement_year text = some y → y ≠ 0 →
      resolveYear text cur = y) := by
  refine ⟨?_, ?_, ?_, ?_, ?_⟩
  · intro h
    simp only [try_parse_statement_year, h]
  · intro h₁ h₂
    simp only [try_parse_statement_year, h₁, h₂]
  · intro h₁ h₂
    simp only [try_parse_statement_year, h₁, h₂]
  · intro h
    simp only [resolveYear, h]
  · intro h₁ h₂
    simp only [resolveYear, h₁, h₂, if_false]

/-- C8 counterexample: the claim says a row exactly equal to
`Date Description Amount Balance` is discarded by the noise filter; no
noise pattern matches it, so it survives into the row sequence. -/
theorem c8_header_row_not_filtered_counterexample :
    is_noise (lchars "Date Description Amount Balance") = false ∧
    tokenize_lines [lchars "Date Description Amount Balance"] =
      [lchars "Date Description Amount Balance"] := by
  constructor
  · with_unfolding_all decide
  · with_unfolding_all decide

/-- C8 amended: a row equal to `Page 2 of 5` is noise and never appears in
the extractor's output for any input, but `Date Description Amount Balance`
is not filtered (no column-header pattern exists) and does appear in the
row sequence; it still never opens a transaction, since it fails the date
pattern, so alone it produces no transaction. -/
theorem c8_noise_filtering :
    (∀ input : List Str,
      (tokenize_lines input).all
        (fun s => !(s == lchars "Page 2 of 5")) = true) ∧
    is_noise (lchars "Page 2 of 5") = true ∧
    is_noise (lchars "Date Description Amount Balance") = false ∧
    tokenize_lines
      [lchars "Page 2 of 5", lchars "Date Description Amount Balance",
       lchars "03 Jan x"] =
      [lchars "Date Description Amount Balance", lchars "03 Jan x"] ∧
    dateMatchRE (lchars "Date Description Amount Balance") = none ∧
    parse_transactions_from_lines
      [lchars "Date Description Amount Balance"] 2024 none = ([], []) := by
  refine ⟨?_, ?_, ?_, ?_, ?_, ?_⟩
  · intro input
    rw [List.all_eq_true]
    intro s hs
    simp only [tokenize_lines] at hs
    have h₁ : s ∈ (input.map pyStrip).filter (fun x => !is_noise x) :=
      (collapseBlanks_sublist false _).subset hs
    have h₂ : is_noise s = false := by
      have := (List.mem_filter.mp h₁).2
      simpa using this
    have h₃ : s ≠ lchars "Page 2 of 5" := by
      intro he
      rw [he] at h₂
      revert h₂
      with_unfolding_all decide
    simpa using h₃
  · with_unfolding_all decide
  · with_unfolding_all decide
  · with_unfolding_all decide
  · with_unfolding_all decide
  · with_unfolding_all decide

/-- C9: the row sequence output by the extractor is a subsequence of the
input lines in original document order — relative order preserved, no
duplication, no reordering.  A row is the stripped text of the line it came
from (line 144 of the source), so in general the output is a sublist of
the stripped lines, and of the input itself whenever the lines carry no
surrounding whitespace. -/
theorem c9_row_order_preserved :
    (∀ input : List Str, (tokenize_lines input).Sublist (input.map pyStrip)) ∧
    (∀ input : List Str, (∀ l ∈ input, pyStrip l = l) →
      (tokenize_lines input).Sublist input) := by
  refine ⟨tokenize_lines_sublist, ?_⟩
  intro input h
  have hmap : input.map pyStrip = input := by
    rw [List.map_congr_left h]
    exact List.map_id input
  have := tokenize_lines_sublist input
  rwa [hmap] at this

/-- C10: `parse_transactions_from_lines` terminates for every finite input:
every iteration of the outer loop consumes at least one line, so
`lines.length` iterations always suffice and any surplus fuel is never
used — the loop makes at most one pass over the lines. -/
theorem c10_single_pass_termination (lines : List Str) (year : Int)
    (opening : Option ℚ) (extra : Nat) :
    ploopF year (lines.length + extra) lines opening =
      parse_transactions_from_lines lines year opening :=
  ploopF_eq_parse year _ lines opening (Nat.le_add_right _ _)

end BankStmt
